import Mathlib

/-!
Verification development for the experimental layered-snapshot build cache
of the morph-python-sdk repository (`src/morphcloud/experimental/__init__.py`).

The Python module is shallowly embedded below:

* the bounded streaming line buffer (`_append_stream_chunk`) becomes a pure
  function on lists of styled lines;
* the SSH output stream (`ssh_stream`) becomes a function from an abstract
  poll trace to the list of yielded `(channel, payload)` events;
* the stream consumer (`instance_exec`) becomes a fold over that event list
  returning `Except`;
* the snapshot store consumed through the external API becomes an explicit
  `Store` state (an ordered list of snapshot records), and the memoizing
  `Snapshot.apply` / `Snapshot.run` pipeline becomes a state-passing function
  that also counts started instances and operation-function invocations;
* `Snapshot.key_to_digest` and the `do` descriptor become string functions;
* the single-file destination resolution of `Snapshot.copy_` becomes a
  function of the remote `stat` oracle;
* the `verifier` closure of `Snapshot.do` becomes a function of the optional
  thread-local current-agent context.

Python exceptions are modelled with `Except String`; machine integers do not
occur in the modelled logic (exit codes are plain integers in Python 3).
-/

namespace MorphSpec

/-! ## Streaming line buffer (`_append_stream_chunk`, lines 137-168) -/

/-- Source constant `STREAM_MAX_LINES = 24`. -/
def STREAM_MAX_LINES : Nat := 24

/-- Source constant `ELLIPSIS`, the truncation marker line. -/
def ELLIPSIS : String := "⋯ [output truncated] ⋯\n"

/-- A buffered line together with its optional style, mirroring the
`deque` elements `(line_text, style_or_None)` of the source. -/
abbrev Line := String × Option String

/-- Helper for `splitlinesKeepends`: walk the characters, emitting a line
every time a newline is crossed; the trailing unterminated line (no newline) is
emitted as well, and an empty remainder emits nothing. -/
def splitLinesAux : List Char → List Char → List (List Char)
  | [], [] => []
  | [], acc => [acc.reverse]
  | c :: cs, acc =>
    if c = '\n' then (acc.reverse ++ ['\n']) :: splitLinesAux cs []
    else splitLinesAux cs (c :: acc)

/-- Model of Python `str.splitlines(keepends=True)` restricted to `'\n'`
line boundaries (the only boundary the streamed shell output uses). -/
def splitlinesKeepends (s : String) : List String :=
  (splitLinesAux s.data []).map (fun l => String.mk l)

/-- A chunk that `splitlines` keeps whole: exactly one logical line. -/
def IsSingleLine (s : String) : Prop := splitlinesKeepends s = [s]

instance (s : String) : Decidable (IsSingleLine s) := by
  unfold IsSingleLine; infer_instance

/-- The `while len(buf) > max_lines: buf.popleft()` trimming loop: drop
elements from the front until at most `maxLines` remain. -/
def trimBuf (buf : List Line) (maxLines : Nat) : List Line :=
  buf.drop (buf.length - maxLines)

/-- Model of `_append_stream_chunk` restricted to its buffer effect: split
the chunk into lines, append them with the given style, then trim the
front. (The function also rebuilds the rendered `Text`; that rebuild is
modelled separately by `renderLines` / `renderPlain`.) -/
def appendStreamChunk (buf : List Line) (chunk : String) (style : Option String)
    (maxLines : Nat) : List Line :=
  trimBuf (buf ++ (splitlinesKeepends chunk).map (fun ln => (ln, style))) maxLines

/-- The rebuilt rendered text, as the list of appended segments: the dim
`ELLIPSIS` marker exactly when the buffer is full, followed by every
buffered line (source lines 161-168). -/
def renderLines (buf : List Line) (maxLines : Nat) : List Line :=
  (if buf.length = maxLines then [(ELLIPSIS, some "dim")] else []) ++ buf

/-- Model of `text_obj.plain` after the rebuild: the concatenated text of the
rendered segments, styles erased. -/
def renderPlain (buf : List Line) (maxLines : Nat) : String :=
  String.join ((renderLines buf maxLines).map (fun ln => ln.1))

/-- Feeding a sequence of chunks through the buffer, one
`_append_stream_chunk` call per chunk, starting from the empty `deque()`. -/
def feedChunks (chunks : List String) (style : Option String) (maxLines : Nat) :
    List Line :=
  chunks.foldl (fun b c => appendStreamChunk b c style maxLines) []

/-! ## Remote execution stream (`ssh_stream`, lines 227-258, and
`instance_exec`, lines 261-277) -/

/-- One yielded event of `ssh_stream`: the channel label string paired with
either a decoded text payload or an integer exit status. The source labels
stdout data `"stdout"`, stderr data `"stdin"` (sic), and the final status
`"exit_code"`. -/
abbrev StreamEv := String × (String ⊕ Int)

/-- One iteration of the polling loop drains the available stdout chunks,
then the available stderr chunks; a poll trace is the list of per-iteration
`(stdout chunks, stderr chunks)` pairs observed until the remote process
has exited and both buffers are empty. -/
abbrev PollTrace := List (List String × List String)

/-- The events yielded inside the `while True` polling loop of
`ssh_stream`: stdout chunks under the `"stdout"` label, stderr chunks under
the `"stdin"` label, iteration after iteration. -/
def sshStreamLoop : PollTrace → List StreamEv
  | [] => []
  | (outs, errs) :: rest =>
    outs.map (fun s => (("stdout" : String), Sum.inl s))
      ++ errs.map (fun s => (("stdin" : String), Sum.inl s))
      ++ sshStreamLoop rest

/-- Model of `ssh_stream`: the loop events followed by the single
`("exit_code", status)` event yielded after the loop breaks. -/
def sshStream (trace : PollTrace) (status : Int) : List StreamEv :=
  sshStreamLoop trace ++ [(("exit_code" : String), Sum.inr status)]

/-- The fixed message of the `RuntimeError` raised by `instance_exec` when
the stream ends without an exit-code event. -/
def sshNoExitMsg : String := "SSH stream did not yield exit code."

/-- Model of `instance_exec`: scan the event stream; on the first
`"exit_code"` event return its status, and if the stream is exhausted first
fail with `sshNoExitMsg`. The `command` parameter is carried exactly as in
the source signature; the source never interpolates it into the error. -/
def instanceExec (command : String) : List StreamEv → Except String Int
  | [] => Except.error sshNoExitMsg
  | ev :: rest =>
    if ev.1 = "exit_code" then
      match ev.2 with
      | Sum.inr status => Except.ok status
      | Sum.inl _ => instanceExec command rest
    else instanceExec command rest

/-! ## Substring containment (used to state what a fault message carries) -/

/-- Test `startsWithChars needle hay`: `needle` is an initial segment of `hay`. -/
def startsWithChars : List Char → List Char → Bool
  | [], _ => true
  | _ :: _, [] => false
  | a :: as, b :: bs => a = b && startsWithChars as bs

/-- Test `hasSubChars needle hay`: `needle` occurs contiguously inside `hay`. -/
def hasSubChars (needle : List Char) : List Char → Bool
  | [] => needle.isEmpty
  | c :: rest => startsWithChars needle (c :: rest) || hasSubChars needle rest

/-- String-level contiguous-substring test. -/
def containsStr (needle hay : String) : Bool :=
  hasSubChars needle.data hay.data

/-! ## Content keys (`Snapshot.key_to_digest`, lines 383-384, and the `do`
descriptor, lines 634-637) -/

/-- Model of `Snapshot.key_to_digest`:
`(self.snapshot.digest or "") + self.snapshot.id + key`. The base digest is
`Option String` because the external store's digest field is nullable. -/
def keyToDigest (baseDigest : Option String) (baseId : String) (key : String) :
    String :=
  baseDigest.getD "" ++ baseId ++ key

/-- Model of Python `",".join(names)` as used for the verify-function names
in `Snapshot.do`. -/
def joinComma : List String → String
  | [] => ""
  | [s] => s
  | s :: rest => s ++ "," ++ joinComma rest

/-- The operation descriptor `Snapshot.do` hashes:
`instructions + ",".join(v.__name__ for v in verify_funcs)`. -/
def doDescriptor (instructions : String) (verifyNames : List String) : String :=
  instructions ++ joinComma verifyNames

/-! ## The external snapshot store and the memoizing `apply` pipeline
(`Snapshot.apply`, lines 386-428, `Snapshot.run`, lines 431-475) -/

/-- One record of the external snapshot store: the opaque id assigned by
the store and the nullable client-chosen digest. -/
structure SnapRec where
  id : String
  digest : Option String
  deriving DecidableEq, Repr

/-- The external snapshot store: the records in creation order, plus a
counter from which the next finalized snapshot id is minted. -/
structure Store where
  snaps : List SnapRec
  nextId : Nat
  deriving Repr

/-- Model of `client.snapshots.list(digest=d)`: the records carrying digest `d`, in
store (creation) order. -/
def Store.list (st : Store) (d : String) : List SnapRec :=
  st.snaps.filter (fun r => decide (r.digest = some d))

/-- The id the store assigns to the next snapshot finalized from a running
instance (`inst.snapshot(...)`). -/
def freshId (st : Store) : String :=
  "morphsnap-" ++ toString st.nextId

/-- The `invalidate: InvalidateFn | bool` parameter of `apply`, resolved as
the source does: a callable is used as the predicate and is truthy; a bool
is both the truthiness test and the constant predicate. -/
inductive Invalidate where
  | bool (b : Bool)
  | fn (f : SnapRec → Bool)

/-- Python truthiness of the `invalidate` argument (`if invalidate:`). -/
def Invalidate.truthy : Invalidate → Bool
  | .bool b => b
  | .fn _ => true

/-- The resolved `invalidate_fn`
(`invalidate if isinstance(invalidate, Callable) else lambda _: invalidate`). -/
def Invalidate.toFn : Invalidate → (SnapRec → Bool)
  | .bool b => fun _ => b
  | .fn f => f

/-- The outcome of one `Snapshot.apply` call: the returned snapshot record
or the propagated exception, the post-call store, and how many instances
were started and how many times the operation function was invoked. -/
structure ApplyOut where
  result : Except String SnapRec
  store : Store
  instancesStarted : Nat
  funcCalls : Nat
  deriving Repr

/-- The cache-miss tail of `apply` (source lines 416-428): start an
instance, invoke the operation function once; if it raises, the exception
propagates with no store change; otherwise finalize the instance into a new
snapshot whose digest is `key_to_digest(key)` when `key` is truthy and null
otherwise, appending it to the store. -/
def applyMiss (st : Store) (baseDigest : Option String) (baseId : String)
    (key : Option String) (funcResult : Except String Unit) : ApplyOut :=
  match funcResult with
  | .error e => ⟨.error e, st, 1, 1⟩
  | .ok _ =>
    let d : Option String :=
      match key with
      | some k => if k = "" then none else some (keyToDigest baseDigest baseId k)
      | none => none
    let newRec : SnapRec := ⟨freshId st, d⟩
    ⟨.ok newRec, ⟨st.snaps ++ [newRec], st.nextId + 1⟩, 1, 1⟩

/-- Model of `Snapshot.apply`. `key` follows Python truthiness: a null or
empty key skips caching entirely. With a truthy key the store is consulted;
with truthy `invalidate` each listed record for which the predicate holds
is deleted and only the surviving records can produce a hit; the first
surviving record is returned unmodified on a hit. The operation function is
abstracted by its outcome `funcResult`. -/
def applyModel (st : Store) (baseDigest : Option String) (baseId : String)
    (key : Option String) (inv : Invalidate) (funcResult : Except String Unit) :
    ApplyOut :=
  match key with
  | some k =>
    if k = "" then applyMiss st baseDigest baseId (some k) funcResult
    else
      let d := keyToDigest baseDigest baseId k
      if inv.truthy then
        let stAfter : Store :=
          ⟨st.snaps.filter (fun r => !(decide (r.digest = some d) && inv.toFn r)),
            st.nextId⟩
        match (st.list d).filter (fun s => !inv.toFn s) with
        | [] => applyMiss stAfter baseDigest baseId (some k) funcResult
        | s :: _ => ⟨.ok s, stAfter, 0, 0⟩
      else
        match st.list d with
        | [] => applyMiss st baseDigest baseId (some k) funcResult
        | s :: _ => ⟨.ok s, st, 0, 0⟩
  | none => applyMiss st baseDigest baseId none funcResult

/-! ## `Snapshot.run` (lines 431-475) -/

/-- The style string `_colour("error")` applied to stderr chunks. -/
def errStyle : String := "#F23F42"

/-- The chunk events `instance_exec` delivers to the `_out` / `_err`
callbacks before returning: every event strictly before the first
`"exit_code"` event. Both callbacks append to the one shared `buf` deque
backing the single `out_text` region, stdout chunks unstyled and stderr
chunks in the error colour. -/
def foldRunEvents (events : List StreamEv) : List Line :=
  (events.takeWhile (fun ev => ev.1 ≠ "exit_code")).foldl
    (fun buf ev =>
      match ev with
      | ("stdout", Sum.inl c) => appendStreamChunk buf c none STREAM_MAX_LINES
      | ("stdin", Sum.inl c) => appendStreamChunk buf c (some errStyle) STREAM_MAX_LINES
      | _ => buf)
    []

/-- The message of the exception `Snapshot.run` raises on a non-zero exit
code; both the `stdout=` and the `stderr=` fields interpolate the same
`out_text.plain`. -/
def runFailMsg (command : String) (status : Int) (outPlain : String) : String :=
  "Command execution failed: " ++ command ++ " exit=" ++ toString status
    ++ " stdout=" ++ outPlain ++ " stderr=" ++ outPlain

/-- The outcome of the `execute` operation function of `Snapshot.run` on a
given event stream: propagate `instance_exec`'s failure, and raise
`runFailMsg` when the exit status is non-zero. -/
def runExec (command : String) (events : List StreamEv) : Except String Unit :=
  match instanceExec command events with
  | .error e => .error e
  | .ok status =>
    if status ≠ 0 then
      .error (runFailMsg command status
        (renderPlain (foldRunEvents events) STREAM_MAX_LINES))
    else .ok ()

/-- Model of `Snapshot.run`: `apply` with `key = command` and the `execute`
operation function, the remote execution abstracted by its event stream. -/
def runModel (st : Store) (baseDigest : Option String) (baseId : String)
    (command : String) (inv : Invalidate) (events : List StreamEv) : ApplyOut :=
  applyModel st baseDigest baseId (some command) inv (runExec command events)

/-! ## Single-file destination resolution of `Snapshot.copy_`
(lines 563-581) -/

/-- Python `dest.endswith("/")`. -/
def endsWithSlash (s : String) : Bool :=
  match s.data.getLast? with
  | some c => c = '/'
  | none => false

/-- Python `dest.rstrip("/")`: remove every trailing slash. -/
def rstripSlash (s : String) : String :=
  String.mk ((s.data.reverse.dropWhile (fun c => c = '/')).reverse)

/-- Model of the single-file branch of `execute_copy`: the remote `stat`
oracle returns `some true` for an existing directory, `some false` for an
existing non-directory, and `none` when `sftp.stat` raises
`FileNotFoundError`. -/
def resolveFileDest (dest name : String) (remoteStat : String → Option Bool) :
    String :=
  if endsWithSlash dest then rstripSlash dest ++ "/" ++ name
  else
    match remoteStat dest with
    | some d => if d then dest ++ "/" ++ name else dest
    | none => dest

/-! ## The `verifier` closure of `Snapshot.do` (lines 656-683) -/

/-- A named verification check, abstracted by its outcome on the live
instance (normal return or raised error text). -/
abbrev Check := String × Except String Unit

/-- Whether a check outcome counts as passed. -/
def checkPassed : Except String Unit → Bool
  | .ok _ => true
  | .error _ => false

/-- Model of the `verifier` closure: returns the boolean handed to the
agent loop together with the number of verification checks actually
executed. With no checks it returns true immediately; with checks but no
thread-local current agent it returns true having executed nothing; with a
current agent every check runs and the result is the conjunction. -/
def verifierModel (checks : List Check) (currentAgent : Option Unit) :
    Bool × Nat :=
  if checks.isEmpty then (true, 0)
  else
    match currentAgent with
    | none => (true, 0)
    | some _ => (checks.all (fun c => checkPassed c.2), checks.length)

/-! ## General lemmas about the streaming buffer -/

theorem trimBuf_length (buf : List Line) (m : Nat) :
    (trimBuf buf m).length = min buf.length m := by
  unfold trimBuf
  rw [List.length_drop]
  omega

theorem appendStreamChunk_length_single (buf : List Line) (c : String)
    (style : Option String) (m : Nat) (h : IsSingleLine c) :
    (appendStreamChunk buf c style m).length = min (buf.length + 1) m := by
  unfold appendStreamChunk
  rw [h, trimBuf_length]
  simp

theorem feedChunks_go_length (chunks : List String) (style : Option String)
    (m : Nat) (buf : List Line) (hall : ∀ c ∈ chunks, IsSingleLine c)
    (hbuf : buf.length ≤ m) :
    (chunks.foldl (fun b c => appendStreamChunk b c style m) buf).length
      = min (buf.length + chunks.length) m := by
  induction chunks generalizing buf with
  | nil => simp only [List.foldl_nil, List.length_nil, Nat.add_zero]; omega
  | cons c rest ih =>
    have hc : IsSingleLine c := hall c (List.mem_cons_self _ _)
    simp only [List.foldl_cons, List.length_cons]
    rw [ih (appendStreamChunk buf c style m)
      (fun x hx => hall x (List.mem_cons_of_mem _ hx))
      (by rw [appendStreamChunk_length_single _ _ _ _ hc]; omega)]
    rw [appendStreamChunk_length_single _ _ _ _ hc]
    omega

theorem feedChunks_length (chunks : List String) (style : Option String)
    (m : Nat) (hall : ∀ c ∈ chunks, IsSingleLine c) :
    (feedChunks chunks style m).length = min chunks.length m := by
  unfold feedChunks
  rw [feedChunks_go_length chunks style m [] hall (by simp)]
  simp

theorem appendStreamChunk_style (buf : List Line) (c : String)
    (style : Option String) (m : Nat) (e : Line)
    (hbuf : ∀ x ∈ buf, x.2 = style) (he : e ∈ appendStreamChunk buf c style m) :
    e.2 = style := by
  unfold appendStreamChunk trimBuf at he
  have := List.drop_subset _ _ he
  rcases List.mem_append.mp this with hb | hnew
  · exact hbuf e hb
  · rcases List.mem_map.mp hnew with ⟨ln, _, rfl⟩
    rfl

theorem feedChunks_go_style (chunks : List String) (style : Option String)
    (m : Nat) (buf : List Line) (hbuf : ∀ x ∈ buf, x.2 = style) :
    ∀ e ∈ chunks.foldl (fun b c => appendStreamChunk b c style m) buf,
      e.2 = style := by
  induction chunks generalizing buf with
  | nil => exact hbuf
  | cons c rest ih =>
    simp only [List.foldl_cons]
    exact ih _ (fun x hx => appendStreamChunk_style buf c style m x hbuf hx)

theorem feedChunks_style (chunks : List String) (style : Option String)
    (m : Nat) : ∀ e ∈ feedChunks chunks style m, e.2 = style :=
  feedChunks_go_style chunks style m [] (by simp)

/-- Claim C5, counterexample: after feeding 1000 single-line chunks through
the buffer with `max_lines = 24`, the rendered text shows 25 lines — the
truncation marker plus the 24 buffered lines — not exactly 24 lines as the
claim states. -/
theorem c5_counterexample :
    (renderLines (feedChunks (List.replicate 1000 "x\n") none 24) 24).length ≠ 24
      ∧ (renderLines (feedChunks (List.replicate 1000 "x\n") none 24) 24).length
          = 25 := by
  have hall : ∀ c ∈ List.replicate 1000 ("x\n" : String), IsSingleLine c := by
    intro c hc
    rw [List.eq_of_mem_replicate hc]
    decide
  have hlen : (feedChunks (List.replicate 1000 "x\n") none 24).length = 24 := by
    rw [feedChunks_length _ _ _ hall, List.length_replicate]
    omega
  constructor
  · unfold renderLines
    rw [if_pos hlen, List.length_append, hlen]
    simp only [List.length_singleton]
    omega
  · unfold renderLines
    rw [if_pos hlen, List.length_append, hlen]
    rfl

/-- Claim C5, amended: feeding 1000 single-line chunks through the buffer
with `max_lines = 24` leaves 25 visible lines — the truncation marker
first, then the 24 most recent lines — the stored buffer stays within 24
entries after every chunk, and the dim truncation marker appears exactly
once in the rendered text. -/
theorem c5_amended (chunks : List String)
    (hall : ∀ c ∈ chunks, IsSingleLine c) (hn : chunks.length = 1000) :
    (renderLines (feedChunks chunks none 24) 24).length = 25
      ∧ (renderLines (feedChunks chunks none 24) 24).head?
          = some (ELLIPSIS, some "dim")
      ∧ (∀ k, (feedChunks (chunks.take k) none 24).length ≤ 24)
      ∧ (renderLines (feedChunks chunks none 24) 24).countP
          (fun e => decide (e.2 = some "dim")) = 1 := by
  have hlen : (feedChunks chunks none 24).length = 24 := by
    rw [feedChunks_length _ _ _ hall, hn]
    omega
  refine ⟨?_, ?_, ?_, ?_⟩
  · unfold renderLines
    rw [if_pos hlen, List.length_append, hlen]
    rfl
  · unfold renderLines
    rw [if_pos hlen, List.singleton_append]
    rfl
  · intro k
    rw [feedChunks_length _ _ _ (fun c hc => hall c (List.take_subset k chunks hc))]
    omega
  · unfold renderLines
    rw [if_pos hlen]
    rw [List.countP_append]
    have h0 : (feedChunks chunks none 24).countP
        (fun e => decide (e.2 = some "dim")) = 0 := by
      rw [List.countP_eq_zero]
      intro e he
      rw [feedChunks_style chunks none 24 e he]
      decide
    rw [h0]
    rfl

/-- Claim C5, witness: the amended statement holds at the concrete input of
1000 identical single-line chunks. -/
theorem c5_witness :
    (∀ c ∈ List.replicate 1000 ("x\n" : String), IsSingleLine c)
      ∧ (List.replicate 1000 ("x\n" : String)).length = 1000
      ∧ ((renderLines (feedChunks (List.replicate 1000 "x\n") none 24) 24).length
            = 25
          ∧ (renderLines (feedChunks (List.replicate 1000 "x\n") none 24) 24).head?
              = some (ELLIPSIS, some "dim")
          ∧ (∀ k, (feedChunks ((List.replicate 1000 "x\n").take k) none 24).length
              ≤ 24)
          ∧ (renderLines (feedChunks (List.replicate 1000 "x\n") none 24) 24).countP
              (fun e => decide (e.2 = some "dim")) = 1) := by
  have hall : ∀ c ∈ List.replicate 1000 ("x\n" : String), IsSingleLine c := by
    intro c hc
    rw [List.eq_of_mem_replicate hc]
    decide
  have hn : (List.replicate 1000 ("x\n" : String)).length = 1000 := by
    rw [List.length_replicate]
  exact ⟨hall, hn, c5_amended (List.replicate 1000 "x\n") hall hn⟩

/-! ## Lemmas about the SSH stream -/

theorem sshStreamLoop_channels (trace : PollTrace) :
    ∀ ev ∈ sshStreamLoop trace, ev.1 = "stdout" ∨ ev.1 = "stdin" := by
  induction trace with
  | nil => intro ev h; cases h
  | cons tick rest ih =>
    intro ev h
    unfold sshStreamLoop at h
    rcases List.mem_append.mp h with h1 | h2
    · rcases List.mem_append.mp h1 with ho | he
      · rcases List.mem_map.mp ho with ⟨c, _, rfl⟩
        exact Or.inl rfl
      · rcases List.mem_map.mp he with ⟨c, _, rfl⟩
        exact Or.inr rfl
    · exact ih ev h2

theorem sshStreamLoop_no_exit (trace : PollTrace) :
    ∀ ev ∈ sshStreamLoop trace, ev.1 ≠ "exit_code" := by
  intro ev h
  rcases sshStreamLoop_channels trace ev h with h1 | h1 <;> rw [h1] <;> decide

/-- Claim C6, counterexample: the channel labels of the stream are not
drawn from stdout / stderr / exit_code — a poll iteration that drains one
stderr chunk yields an event labelled `"stdin"`. -/
theorem c6_counterexample :
    ∃ ev ∈ sshStream [([], ["boom"])] 0,
      ¬(ev.1 = "stdout" ∨ ev.1 = "stderr" ∨ ev.1 = "exit_code") := by
  refine ⟨(("stdin" : String), Sum.inl "boom"), ?_, by decide⟩
  unfold sshStream sshStreamLoop
  simp

/-- Claim C6, amended: every element of the stream carries one of the
channel labels `"stdout"`, `"stdin"` (under which stderr payloads travel),
or `"exit_code"`; the stream contains exactly one exit-code event, and it
is the final element, after which the stream terminates. -/
theorem c6_amended (trace : PollTrace) (status : Int) :
    (∀ ev ∈ sshStream trace status,
        ev.1 = "stdout" ∨ ev.1 = "stdin" ∨ ev.1 = "exit_code")
      ∧ (sshStream trace status).countP (fun ev => decide (ev.1 = "exit_code")) = 1
      ∧ (sshStream trace status).getLast?
          = some (("exit_code" : String), Sum.inr status) := by
  refine ⟨?_, ?_, ?_⟩
  · intro ev h
    unfold sshStream at h
    rcases List.mem_append.mp h with h1 | h2
    · rcases sshStreamLoop_channels trace ev h1 with h3 | h3
      · exact Or.inl h3
      · exact Or.inr (Or.inl h3)
    · rw [List.mem_singleton.mp h2]
      exact Or.inr (Or.inr rfl)
  · unfold sshStream
    rw [List.countP_append]
    have h0 : (sshStreamLoop trace).countP (fun ev => decide (ev.1 = "exit_code"))
        = 0 := by
      rw [List.countP_eq_zero]
      intro ev h
      simpa using sshStreamLoop_no_exit trace ev h
    rw [h0]
    rfl
  · unfold sshStream
    simp

/-- Claim C6, witness: the amended statement at a concrete two-iteration
trace with stdout and stderr traffic and exit status 3. -/
theorem c6_witness :
    (∀ ev ∈ sshStream [(["a\n"], ["b\n"]), ([], ["c\n"])] 3,
        ev.1 = "stdout" ∨ ev.1 = "stdin" ∨ ev.1 = "exit_code")
      ∧ (sshStream [(["a\n"], ["b\n"]), ([], ["c\n"])] 3).countP
          (fun ev => decide (ev.1 = "exit_code")) = 1
      ∧ (sshStream [(["a\n"], ["b\n"]), ([], ["c\n"])] 3).getLast?
          = some (("exit_code" : String), Sum.inr 3) :=
  c6_amended [(["a\n"], ["b\n"]), ([], ["c\n"])] 3

/-! ## Lemmas about `instance_exec` and the run failure message -/

theorem instanceExec_no_exit (command : String) (events : List StreamEv)
    (h : ∀ ev ∈ events, ev.1 ≠ "exit_code") :
    instanceExec command events = .error sshNoExitMsg := by
  induction events with
  | nil => rfl
  | cons ev rest ih =>
    unfold instanceExec
    rw [if_neg (h ev (List.mem_cons_self _ _))]
    exact ih (fun x hx => h x (List.mem_cons_of_mem _ hx))

theorem runFailMsg_ne_sshNoExitMsg (cmd : String) (status : Int) (plain : String) :
    runFailMsg cmd status plain ≠ sshNoExitMsg := by
  intro heq
  have hlen := congrArg String.length heq
  simp only [runFailMsg, String.length_append] at hlen
  have l1 : ("Command execution failed: " : String).length = 26 := by decide
  have l2 : (" exit=" : String).length = 6 := by decide
  have l3 : (" stdout=" : String).length = 8 := by decide
  have l4 : (" stderr=" : String).length = 8 := by decide
  have l5 : sshNoExitMsg.length = 35 := by decide
  rw [l1, l2, l3, l4, l5] at hlen
  omega

/-- Claim C7, counterexample: a stream that drops without an exit-code
event makes `instance_exec` raise the fixed message
"SSH stream did not yield exit code.", which carries neither the command
nor the recent output. -/
theorem c7_counterexample :
    instanceExec "mycmd" ([(("stdout" : String), Sum.inl "someoutput\n")]
          : List StreamEv) = .error sshNoExitMsg
      ∧ containsStr "mycmd" sshNoExitMsg = false
      ∧ containsStr "someoutput" sshNoExitMsg = false := by
  refine ⟨rfl, by decide, by decide⟩

/-- Claim C7, amended: when the stream ends without an exit-code event the
executor raises a fault with the fixed message
"SSH stream did not yield exit code.", distinct from every nonzero-exit
fault message, but the fault carries neither the command nor the truncated
recent output. -/
theorem c7_amended (command : String) (events : List StreamEv)
    (h : ∀ ev ∈ events, ev.1 ≠ "exit_code") :
    instanceExec command events = .error sshNoExitMsg
      ∧ (∀ cmd status plain, runFailMsg cmd status plain ≠ sshNoExitMsg) :=
  ⟨instanceExec_no_exit command events h, runFailMsg_ne_sshNoExitMsg⟩

/-- Claim C7, witness: the amended statement at a concrete dropped stream
carrying one stdout chunk. -/
theorem c7_witness :
    (∀ ev ∈ ([(("stdout" : String), Sum.inl "hi\n")] : List StreamEv),
        ev.1 ≠ "exit_code")
      ∧ (instanceExec "ls /tmp" ([(("stdout" : String), Sum.inl "hi\n")]
            : List StreamEv) = .error sshNoExitMsg
          ∧ (∀ cmd status plain, runFailMsg cmd status plain ≠ sshNoExitMsg)) := by
  have h : ∀ ev ∈ ([(("stdout" : String), Sum.inl "hi\n")] : List StreamEv),
      ev.1 ≠ "exit_code" := by
    intro ev hev
    rw [List.mem_singleton.mp hev]
    decide
  exact ⟨h, c7_amended "ls /tmp"
    ([(("stdout" : String), Sum.inl "hi\n")] : List StreamEv) h⟩

/-- Claim C10: on a non-zero exit status the raised fault message
interpolates the same merged buffer text after `stdout=` and after
`stderr=`: both fields are `out_text.plain`, the render of the single
buffer into which stdout and stderr chunks were interleaved. -/
theorem c10_run_error_merged_output (command : String) (events : List StreamEv)
    (status : Int) (hex : instanceExec command events = .ok status)
    (hnz : status ≠ 0) :
    runExec command events = .error
      ("Command execution failed: " ++ command ++ " exit=" ++ toString status
        ++ " stdout=" ++ renderPlain (foldRunEvents events) STREAM_MAX_LINES
        ++ " stderr=" ++ renderPlain (foldRunEvents events) STREAM_MAX_LINES) := by
  unfold runExec
  rw [hex]
  dsimp only
  rw [if_pos hnz]
  rfl

/-- Claim C10, witness: a concrete failing run with interleaved stdout and
stderr chunks and exit status 7. -/
theorem c10_witness :
    instanceExec "boom" ([(("stdout" : String), Sum.inl "o\n"),
        (("stdin" : String), Sum.inl "e\n"),
        (("exit_code" : String), Sum.inr 7)] : List StreamEv) = .ok 7
      ∧ (7 : Int) ≠ 0
      ∧ runExec "boom" ([(("stdout" : String), Sum.inl "o\n"),
          (("stdin" : String), Sum.inl "e\n"),
          (("exit_code" : String), Sum.inr 7)] : List StreamEv) = .error
        ("Command execution failed: " ++ "boom" ++ " exit=" ++ toString (7 : Int)
          ++ " stdout=" ++ renderPlain (foldRunEvents
              ([(("stdout" : String), Sum.inl "o\n"),
                (("stdin" : String), Sum.inl "e\n"),
                (("exit_code" : String), Sum.inr 7)] : List StreamEv)) STREAM_MAX_LINES
          ++ " stderr=" ++ renderPlain (foldRunEvents
              ([(("stdout" : String), Sum.inl "o\n"),
                (("stdin" : String), Sum.inl "e\n"),
                (("exit_code" : String), Sum.inr 7)] : List StreamEv)) STREAM_MAX_LINES) :=
  ⟨rfl, by decide,
    c10_run_error_merged_output "boom" ([(("stdout" : String), Sum.inl "o\n"),
      (("stdin" : String), Sum.inl "e\n"),
      (("exit_code" : String), Sum.inr 7)] : List StreamEv) 7 rfl (by decide)⟩

/-! ## Substring lemmas for fault-message containment -/

theorem startsWithChars_self_append (n s : List Char) :
    startsWithChars n (n ++ s) = true := by
  induction n with
  | nil => rfl
  | cons a as ih => simp [startsWithChars, ih]

theorem hasSub_here (n s : List Char) : hasSubChars n (n ++ s) = true := by
  cases n with
  | nil =>
    cases s with
    | nil => rfl
    | cons c cs => simp [hasSubChars, startsWithChars]
  | cons a as =>
    simp only [List.cons_append]
    unfold hasSubChars
    rw [← List.cons_append, startsWithChars_self_append]
    simp

theorem hasSub_extend (p : List Char) {n s : List Char}
    (h : hasSubChars n s = true) : hasSubChars n (p ++ s) = true := by
  induction p with
  | nil => simpa using h
  | cons c cs ih =>
    simp only [List.cons_append]
    unfold hasSubChars
    rw [ih]
    simp

theorem strAppend_assoc (a b c : String) : a ++ b ++ c = a ++ (b ++ c) := by
  apply String.ext
  simp [String.data_append, List.append_assoc]

theorem containsStr_here (n s : String) : containsStr n (n ++ s) = true := by
  unfold containsStr
  rw [String.data_append]
  exact hasSub_here _ _

theorem containsStr_extendL (a : String) {n s : String}
    (h : containsStr n s = true) : containsStr n (a ++ s) = true := by
  unfold containsStr at h ⊢
  rw [String.data_append]
  exact hasSub_extend _ h

/-! ## Claim C4: nonzero exit propagation -/

/-- Claim C4: when remote execution of a command reports a non-zero exit
status on a cache miss, `run` raises a fault whose message contains the
status digits and the command text, and no new snapshot is persisted (the
exception propagates out of `apply` before finalization). -/
theorem c4_nonzero_exit (st : Store) (bd : Option String) (bid : String)
    (cmd : String) (inv : Invalidate) (events : List StreamEv) (status : Int)
    (hex : instanceExec cmd events = .ok status) (hnz : status ≠ 0)
    (hmiss : st.list (keyToDigest bd bid cmd) = []) :
    (runModel st bd bid cmd inv events).result
        = .error (runFailMsg cmd status
            (renderPlain (foldRunEvents events) STREAM_MAX_LINES))
      ∧ containsStr cmd (runFailMsg cmd status
          (renderPlain (foldRunEvents events) STREAM_MAX_LINES)) = true
      ∧ containsStr (toString status) (runFailMsg cmd status
          (renderPlain (foldRunEvents events) STREAM_MAX_LINES)) = true
      ∧ ∀ r ∈ (runModel st bd bid cmd inv events).store.snaps, r ∈ st.snaps := by
  have hrun : runExec cmd events = .error (runFailMsg cmd status
      (renderPlain (foldRunEvents events) STREAM_MAX_LINES)) := by
    unfold runExec
    rw [hex]
    dsimp only
    rw [if_pos hnz]
  have hcmd : containsStr cmd (runFailMsg cmd status
      (renderPlain (foldRunEvents events) STREAM_MAX_LINES)) = true := by
    unfold runFailMsg
    simp only [strAppend_assoc]
    exact containsStr_extendL _ (containsStr_here _ _)
  have hst : containsStr (toString status) (runFailMsg cmd status
      (renderPlain (foldRunEvents events) STREAM_MAX_LINES)) = true := by
    unfold runFailMsg
    simp only [strAppend_assoc]
    exact containsStr_extendL _ (containsStr_extendL _
      (containsStr_extendL _ (containsStr_here _ _)))
  have hout : (runModel st bd bid cmd inv events).result
        = .error (runFailMsg cmd status
            (renderPlain (foldRunEvents events) STREAM_MAX_LINES))
      ∧ ∀ r ∈ (runModel st bd bid cmd inv events).store.snaps, r ∈ st.snaps := by
    unfold runModel applyModel
    dsimp only
    by_cases hc : cmd = ""
    · rw [if_pos hc, hrun]
      unfold applyMiss
      exact ⟨rfl, fun r hr => hr⟩
    · rw [if_neg hc]
      by_cases hti : inv.truthy
      · rw [if_pos hti]
        rw [hmiss]
        dsimp only [List.filter_nil]
        rw [hrun]
        unfold applyMiss
        exact ⟨rfl, fun r hr => List.filter_subset' _ hr⟩
      · rw [if_neg hti]
        rw [hmiss, hrun]
        unfold applyMiss
        exact ⟨rfl, fun r hr => hr⟩
  exact ⟨hout.1, hcmd, hst, hout.2⟩

/-- Claim C4, witness: a concrete command exiting with status 17 against an
empty store. -/
theorem c4_witness :
    instanceExec "false" ([(("exit_code" : String), Sum.inr 17)] : List StreamEv)
        = .ok 17
      ∧ (17 : Int) ≠ 0
      ∧ Store.list ⟨[], 0⟩ (keyToDigest (some "b") "i" "false") = []
      ∧ ((runModel ⟨[], 0⟩ (some "b") "i" "false" (.bool false)
            ([(("exit_code" : String), Sum.inr 17)] : List StreamEv)).result
          = .error (runFailMsg "false" 17
              (renderPlain (foldRunEvents
                ([(("exit_code" : String), Sum.inr 17)] : List StreamEv))
                STREAM_MAX_LINES))
        ∧ containsStr "false" (runFailMsg "false" 17
            (renderPlain (foldRunEvents
              ([(("exit_code" : String), Sum.inr 17)] : List StreamEv))
              STREAM_MAX_LINES)) = true
        ∧ containsStr (toString (17 : Int)) (runFailMsg "false" 17
            (renderPlain (foldRunEvents
              ([(("exit_code" : String), Sum.inr 17)] : List StreamEv))
              STREAM_MAX_LINES)) = true
        ∧ ∀ r ∈ (runModel ⟨[], 0⟩ (some "b") "i" "false" (.bool false)
            ([(("exit_code" : String), Sum.inr 17)] : List StreamEv)).store.snaps,
            r ∈ (⟨[], 0⟩ : Store).snaps) :=
  ⟨rfl, by decide, rfl,
    c4_nonzero_exit ⟨[], 0⟩ (some "b") "i" "false" (.bool false)
      ([(("exit_code" : String), Sum.inr 17)] : List StreamEv) 17
      rfl (by decide) rfl⟩

/-! ## Claim C1: cache hit is pure -/

/-- Claim C1, counterexample: the key `""` is non-null, and the store holds
a record under its derived digest (`keyToDigest (some "base") "sid" "" =
"basesid"`), yet with falsy `invalidate` the call starts an instance,
invokes the operation function once, and appends a new snapshot, because
`if key:` treats the empty string as falsy and skips caching entirely. -/
theorem c1_counterexample :
    Store.list ⟨[⟨"old", some "basesid"⟩], 0⟩ (keyToDigest (some "base") "sid" "")
        ≠ []
      ∧ (applyModel ⟨[⟨"old", some "basesid"⟩], 0⟩ (some "base") "sid" (some "")
          (.bool false) (.ok ())).instancesStarted = 1
      ∧ (applyModel ⟨[⟨"old", some "basesid"⟩], 0⟩ (some "base") "sid" (some "")
          (.bool false) (.ok ())).funcCalls = 1
      ∧ (applyModel ⟨[⟨"old", some "basesid"⟩], 0⟩ (some "base") "sid" (some "")
          (.bool false) (.ok ())).store.snaps.length = 2 := by
  refine ⟨by decide, rfl, rfl, rfl⟩

/-- Claim C1, amended: for every apply call with a non-null, non-empty key
where the store lookup for the derived digest is non-empty and `invalidate`
is falsy, `apply` returns the first matching record unmodified, leaves the
store unchanged, starts no instance, and never invokes the operation
function. -/
theorem c1_amended (st : Store) (bd : Option String) (bid : String) (k : String)
    (f : Except String Unit) (r : SnapRec) (rest : List SnapRec)
    (hk : k ≠ "") (hl : st.list (keyToDigest bd bid k) = r :: rest) :
    applyModel st bd bid (some k) (.bool false) f
      = ⟨.ok r, st, 0, 0⟩ := by
  unfold applyModel
  dsimp only
  rw [if_neg hk]
  rw [show (Invalidate.bool false).truthy = false from rfl]
  rw [if_neg Bool.false_ne_true]
  rw [hl]

/-- Claim C1, witness: a concrete hit on a one-record store with key
`"apt install"`. -/
theorem c1_witness :
    ("apt install" : String) ≠ ""
      ∧ Store.list ⟨[⟨"old", some "biapt install" ⟩], 4⟩
          (keyToDigest (some "b") "i" "apt install")
          = [⟨"old", some "biapt install" ⟩]
      ∧ applyModel ⟨[⟨"old", some "biapt install" ⟩], 4⟩ (some "b") "i" (some "apt install")
          (.bool false) (.ok ())
          = ⟨.ok ⟨"old", some "biapt install" ⟩, ⟨[⟨"old", some "biapt install" ⟩], 4⟩, 0, 0⟩ := by
  have h1 : ("apt install" : String) ≠ "" := by decide
  have h2 : Store.list ⟨[⟨"old", some "biapt install" ⟩], 4⟩
      (keyToDigest (some "b") "i" "apt install")
      = [⟨"old", some "biapt install" ⟩] := by decide
  exact ⟨h1, h2, c1_amended ⟨[⟨"old", some "biapt install" ⟩], 4⟩ (some "b") "i"
    "apt install" (.ok ()) ⟨"old", some "biapt install" ⟩ [] h1 h2⟩

/-! ## Claim C3: invalidation -/

theorem filter_digest_not_digest (d : String) (l : List SnapRec) :
    (l.filter (fun r => !decide (r.digest = some d))).filter
      (fun r => decide (r.digest = some d)) = [] := by
  induction l with
  | nil => rfl
  | cons a t ih =>
    cases hpa : decide (a.digest = some d) <;> simp [List.filter_cons, hpa, ih]

/-- Claim C3, counterexample: for the empty command the claim fails — with
`invalidate=True`, `run("")` deletes nothing (the falsy key skips caching)
and stores the new snapshot without the key, so a prior record under the
ContentKey of `(base, "")` survives and stays the only record under that
key, instead of being deleted and replaced. -/
theorem c3_counterexample :
    (runModel ⟨[⟨"old", some "bi"⟩], 0⟩ (some "b") "i" "" (.bool true)
        ([(("exit_code" : String), Sum.inr 0)] : List StreamEv)).store.list
        (keyToDigest (some "b") "i" "")
      = [⟨"old", some "bi"⟩] := by
  decide

/-- Claim C3, amended: for every non-empty command, `run(cmd,
invalidate=True)` deletes every snapshot previously stored under the
ContentKey of `(base, cmd)`, and when the command exits 0 the post-call
store holds exactly one snapshot under that key — the newly finalized
one, which is also the returned result. -/
theorem c3_amended (st : Store) (bd : Option String) (bid : String)
    (cmd : String) (events : List StreamEv)
    (hcmd : cmd ≠ "") (hex : instanceExec cmd events = .ok 0)
    (hfresh : ∀ r ∈ st.snaps, r.id ≠ freshId st) :
    (runModel st bd bid cmd (.bool true) events).store.list
        (keyToDigest bd bid cmd)
      = [⟨freshId st, some (keyToDigest bd bid cmd)⟩]
    ∧ (∀ r ∈ st.list (keyToDigest bd bid cmd),
        r ∉ (runModel st bd bid cmd (.bool true) events).store.snaps)
    ∧ (runModel st bd bid cmd (.bool true) events).result
      = .ok ⟨freshId st, some (keyToDigest bd bid cmd)⟩ := by
  have hrun : runExec cmd events = .ok () := by
    unfold runExec
    rw [hex]
    dsimp only
    rw [if_neg (fun h : (0 : Int) ≠ 0 => h rfl)]
  unfold runModel applyModel
  dsimp only
  rw [if_neg hcmd]
  rw [show (Invalidate.bool true).truthy = true from rfl]
  rw [if_pos rfl]
  simp only [Invalidate.toFn, Bool.and_true, Bool.not_true]
  have hval : (st.list (keyToDigest bd bid cmd)).filter (fun _ => false) = [] :=
    List.filter_false _
  rw [hval]
  rw [hrun]
  unfold applyMiss
  dsimp only
  rw [if_neg hcmd]
  refine ⟨?_, ?_, rfl⟩
  · unfold Store.list
    dsimp only
    rw [List.filter_append]
    rw [filter_digest_not_digest]
    simp [freshId]
  · intro r hr hmem
    have hrm := List.mem_filter.mp hr
    have hrd : r.digest = some (keyToDigest bd bid cmd) := of_decide_eq_true hrm.2
    rcases List.mem_append.mp hmem with h1 | h2
    · have hkeep := (List.mem_filter.mp h1).2
      rw [hrd] at hkeep
      simp at hkeep
    · have hreq : r = ⟨freshId st, some (keyToDigest bd bid cmd)⟩ :=
        List.mem_singleton.mp h2
      exact hfresh r hrm.1 (congrArg SnapRec.id hreq)

/-- Claim C3, witness: a concrete invalidating rerun of `"make"` against a
store holding two stale records under the key and one unrelated record. -/
theorem c3_witness :
    ("make" : String) ≠ ""
      ∧ instanceExec "make" ([(("exit_code" : String), Sum.inr 0)] : List StreamEv)
          = .ok 0
      ∧ (∀ r ∈ (⟨[⟨"s1", some "bimake"⟩, ⟨"s2", some "bimake"⟩, ⟨"s3", some "zz"⟩],
            7⟩ : Store).snaps,
          r.id ≠ freshId ⟨[⟨"s1", some "bimake"⟩, ⟨"s2", some "bimake"⟩,
            ⟨"s3", some "zz"⟩], 7⟩)
      ∧ ((runModel ⟨[⟨"s1", some "bimake"⟩, ⟨"s2", some "bimake"⟩,
            ⟨"s3", some "zz"⟩], 7⟩ (some "b") "i" "make" (.bool true)
            ([(("exit_code" : String), Sum.inr 0)] : List StreamEv)).store.list
            (keyToDigest (some "b") "i" "make")
          = [⟨freshId ⟨[⟨"s1", some "bimake"⟩, ⟨"s2", some "bimake"⟩,
              ⟨"s3", some "zz"⟩], 7⟩, some (keyToDigest (some "b") "i" "make")⟩]
        ∧ (∀ r ∈ (⟨[⟨"s1", some "bimake"⟩, ⟨"s2", some "bimake"⟩,
              ⟨"s3", some "zz"⟩], 7⟩ : Store).list (keyToDigest (some "b") "i" "make"),
            r ∉ (runModel ⟨[⟨"s1", some "bimake"⟩, ⟨"s2", some "bimake"⟩,
              ⟨"s3", some "zz"⟩], 7⟩ (some "b") "i" "make" (.bool true)
              ([(("exit_code" : String), Sum.inr 0)] : List StreamEv)).store.snaps)
        ∧ (runModel ⟨[⟨"s1", some "bimake"⟩, ⟨"s2", some "bimake"⟩,
            ⟨"s3", some "zz"⟩], 7⟩ (some "b") "i" "make" (.bool true)
            ([(("exit_code" : String), Sum.inr 0)] : List StreamEv)).result
          = .ok ⟨freshId ⟨[⟨"s1", some "bimake"⟩, ⟨"s2", some "bimake"⟩,
              ⟨"s3", some "zz"⟩], 7⟩, some (keyToDigest (some "b") "i" "make")⟩) := by
  have h1 : ("make" : String) ≠ "" := by decide
  have h2 : instanceExec "make"
      ([(("exit_code" : String), Sum.inr 0)] : List StreamEv) = .ok 0 := rfl
  have h3 : ∀ r ∈ (⟨[⟨"s1", some "bimake"⟩, ⟨"s2", some "bimake"⟩,
      ⟨"s3", some "zz"⟩], 7⟩ : Store).snaps,
      r.id ≠ freshId ⟨[⟨"s1", some "bimake"⟩, ⟨"s2", some "bimake"⟩,
        ⟨"s3", some "zz"⟩], 7⟩ := by decide
  exact ⟨h1, h2, h3, c3_amended _ (some "b") "i" "make" _ h1 h2 h3⟩

/-! ## Claim C2: content-key sensitivity -/

theorem strAppend_cancel_left {a b c : String} (h : a ++ b = a ++ c) : b = c := by
  apply String.ext
  have hd := congrArg String.data h
  rw [String.data_append, String.data_append] at hd
  exact List.append_cancel_left hd

theorem strAppend_cancel_right {a b c : String} (h : a ++ c = b ++ c) : a = b := by
  apply String.ext
  have hd := congrArg String.data h
  rw [String.data_append, String.data_append] at hd
  exact List.append_cancel_right hd

theorem joinComma_data : ∀ ns : List String,
    (joinComma ns).data = List.intercalate [','] (ns.map String.data)
  | [] => by simp [joinComma, List.intercalate]
  | [s] => by simp [joinComma, List.intercalate]
  | s :: s2 :: t => by
    have ih := joinComma_data (s2 :: t)
    show (s ++ "," ++ joinComma (s2 :: t)).data = _
    rw [String.data_append, String.data_append, ih]
    have hsep : ("," : String).data = [','] := rfl
    rw [hsep]
    simp [List.intercalate, List.intersperse]

theorem map_data_inj : ∀ {as bs : List String},
    as.map String.data = bs.map String.data → as = bs
  | [], [], _ => rfl
  | [], _ :: _, h => by simp at h
  | _ :: _, [], h => by simp at h
  | a :: as, b :: bs, h => by
    simp only [List.map_cons, List.cons.injEq] at h
    have h1 : a = b := String.ext h.1
    have h2 : as = bs := map_data_inj h.2
    rw [h1, h2]

theorem joinComma_cons_data (s : String) (t : List String) :
    ∃ r, (joinComma (s :: t)).data = s.data ++ r := by
  cases t with
  | nil => exact ⟨[], by simp [joinComma]⟩
  | cons s2 t2 =>
    refine ⟨("," : String).data ++ (joinComma (s2 :: t2)).data, ?_⟩
    show (s ++ "," ++ joinComma (s2 :: t2)).data = _
    rw [String.data_append, String.data_append, List.append_assoc]

theorem joinComma_nonempty_ne_empty (b : String) (bs : List String)
    (hb : b ≠ "") : joinComma (b :: bs) ≠ "" := by
  intro heq
  obtain ⟨r, hr⟩ := joinComma_cons_data b bs
  have hd := congrArg String.data heq
  rw [hr] at hd
  have hempty : ("" : String).data = [] := rfl
  rw [hempty] at hd
  have hbnil : b.data = [] := (List.append_eq_nil.mp hd).1
  exact hb (String.ext hbnil)

theorem joinComma_inj (ns1 ns2 : List String)
    (h1 : ∀ x ∈ ns1, x ≠ "" ∧ ',' ∉ x.data)
    (h2 : ∀ x ∈ ns2, x ≠ "" ∧ ',' ∉ x.data)
    (heq : joinComma ns1 = joinComma ns2) : ns1 = ns2 := by
  cases ns1 with
  | nil =>
    cases ns2 with
    | nil => rfl
    | cons b bs =>
      exact absurd heq.symm
        (joinComma_nonempty_ne_empty b bs (h2 b (List.mem_cons_self _ _)).1)
  | cons a as =>
    cases ns2 with
    | nil =>
      exact absurd heq
        (joinComma_nonempty_ne_empty a as (h1 a (List.mem_cons_self _ _)).1)
    | cons b bs =>
      have hx1 : ∀ l ∈ (a :: as).map String.data, ',' ∉ l := by
        intro l hl
        rcases List.mem_map.mp hl with ⟨x, hx, rfl⟩
        exact (h1 x hx).2
      have hx2 : ∀ l ∈ (b :: bs).map String.data, ',' ∉ l := by
        intro l hl
        rcases List.mem_map.mp hl with ⟨x, hx, rfl⟩
        exact (h2 x hx).2
      have hls1 : (a :: as).map String.data ≠ [] := by simp
      have hls2 : (b :: bs).map String.data ≠ [] := by simp
      have hi : [','].intercalate ((a :: as).map String.data)
          = [','].intercalate ((b :: bs).map String.data) := by
        rw [← joinComma_data, ← joinComma_data, heq]
      have hs1 := List.splitOn_intercalate ((a :: as).map String.data) ',' hx1 hls1
      have hs2 := List.splitOn_intercalate ((b :: bs).map String.data) ',' hx2 hls2
      apply map_data_inj
      rw [← hs1, ← hs2, hi]

/-- Claim C2, counterexample: two different base states — digest `"a"` with
id `"bc"` versus digest `"ab"` with id `"c"` — produce the same ContentKey
for the same descriptor, because the key is plain concatenation, so equal
keys do not imply equal base state; the claimed iff fails in the
key-determines-inputs direction. -/
theorem c2_counterexample :
    keyToDigest (some "a") "bc" "k" = keyToDigest (some "ab") "c" "k"
      ∧ (some "a" : Option String) ≠ some "ab"
      ∧ ("bc" : String) ≠ "c" := by
  refine ⟨by decide, by decide, by decide⟩

/-- Claim C2, amended: the ContentKey is deterministic in the base state
and descriptor, and is injective in each component separately — with the
other components fixed, changing the normalized base digest, the base
snapshot id, or the descriptor (in particular the command text, or the
comma-joined verify-function-name list, names being non-empty and
comma-free) changes the key; but a key equality alone does not determine
the individual components, by the counterexample. -/
theorem c2_amended :
    (∀ bd1 bd2 : Option String, ∀ bid1 bid2 k1 k2 : String,
        bd1 = bd2 → bid1 = bid2 → k1 = k2 →
        keyToDigest bd1 bid1 k1 = keyToDigest bd2 bid2 k2)
      ∧ (∀ (bd : Option String) (bid k1 k2 : String),
          keyToDigest bd bid k1 = keyToDigest bd bid k2 → k1 = k2)
      ∧ (∀ (bd1 bd2 : Option String) (bid k : String),
          keyToDigest bd1 bid k = keyToDigest bd2 bid k →
          bd1.getD "" = bd2.getD "")
      ∧ (∀ (bd : Option String) (bid1 bid2 k : String),
          keyToDigest bd bid1 k = keyToDigest bd bid2 k → bid1 = bid2)
      ∧ (∀ (bd : Option String) (bid instr : String) (ns1 ns2 : List String),
          (∀ x ∈ ns1, x ≠ "" ∧ ',' ∉ x.data) →
          (∀ x ∈ ns2, x ≠ "" ∧ ',' ∉ x.data) →
          keyToDigest bd bid (doDescriptor instr ns1)
            = keyToDigest bd bid (doDescriptor instr ns2) → ns1 = ns2) := by
  refine ⟨?_, ?_, ?_, ?_, ?_⟩
  · intro bd1 bd2 bid1 bid2 k1 k2 e1 e2 e3
    rw [e1, e2, e3]
  · intro bd bid k1 k2 h
    unfold keyToDigest at h
    exact strAppend_cancel_left h
  · intro bd1 bd2 bid k h
    unfold keyToDigest at h
    exact strAppend_cancel_right (strAppend_cancel_right h)
  · intro bd bid1 bid2 k h
    unfold keyToDigest at h
    exact strAppend_cancel_left (strAppend_cancel_right h)
  · intro bd bid instr ns1 ns2 hn1 hn2 h
    unfold keyToDigest at h
    have hdesc : doDescriptor instr ns1 = doDescriptor instr ns2 :=
      strAppend_cancel_left h
    unfold doDescriptor at hdesc
    exact joinComma_inj ns1 ns2 hn1 hn2 (strAppend_cancel_left hdesc)

/-- Claim C2, witness: the verify-name-sensitivity component applied at a
concrete digest, id, instruction text and verify-name list, discharging
the non-empty and comma-free hypotheses. -/
theorem c2_witness :
    (∀ x ∈ (["check_a", "check_b"] : List String), x ≠ "" ∧ ',' ∉ x.data)
      ∧ (["check_a", "check_b"] : List String) = ["check_a", "check_b"] := by
  have hn : ∀ x ∈ (["check_a", "check_b"] : List String),
      x ≠ "" ∧ ',' ∉ x.data := by decide
  exact ⟨hn, c2_amended.2.2.2.2 (some "d") "i" "setup python"
    ["check_a", "check_b"] ["check_a", "check_b"] hn hn rfl⟩

/-! ## Claim C8: copy destination disambiguation -/

/-- Claim C8: for a single local file, the remote destination is resolved
as the source does, the three spec cases read in order: a trailing path
separator lands the file in the directory (trailing separators stripped,
then the filename appended); otherwise an existing remote directory lands
the file inside it; otherwise a non-existent remote path is the literal
target. -/
theorem c8_copy_file_dest (dest name : String) (stat : String → Option Bool) :
    (endsWithSlash dest = true →
        resolveFileDest dest name stat = rstripSlash dest ++ "/" ++ name)
      ∧ (endsWithSlash dest = false → stat dest = some true →
        resolveFileDest dest name stat = dest ++ "/" ++ name)
      ∧ (endsWithSlash dest = false → stat dest = none →
        resolveFileDest dest name stat = dest) := by
  refine ⟨?_, ?_, ?_⟩
  · intro h
    unfold resolveFileDest
    rw [if_pos h]
  · intro h hs
    unfold resolveFileDest
    rw [if_neg (by rw [h]; exact Bool.false_ne_true), hs]
    rfl
  · intro h hs
    unfold resolveFileDest
    rw [if_neg (by rw [h]; exact Bool.false_ne_true), hs]

/-- Claim C8, witness: the three cases at concrete destinations against a
remote tree where `dir2` is an existing directory and `nofile` is absent. -/
theorem c8_witness :
    (endsWithSlash "dir/" = true
        ∧ resolveFileDest "dir/" "a.txt"
            (fun s => if s = "dir2" then some true else none)
          = rstripSlash "dir/" ++ "/" ++ "a.txt")
      ∧ (endsWithSlash "dir2" = false
        ∧ resolveFileDest "dir2" "a.txt"
            (fun s => if s = "dir2" then some true else none)
          = "dir2" ++ "/" ++ "a.txt")
      ∧ (endsWithSlash "nofile" = false
        ∧ resolveFileDest "nofile" "a.txt"
            (fun s => if s = "dir2" then some true else none)
          = "nofile") := by
  refine ⟨⟨by decide, ?_⟩, ⟨by decide, ?_⟩, ⟨by decide, ?_⟩⟩
  · exact (c8_copy_file_dest "dir/" "a.txt"
      (fun s => if s = "dir2" then some true else none)).1 (by decide)
  · exact (c8_copy_file_dest "dir2" "a.txt"
      (fun s => if s = "dir2" then some true else none)).2.1 (by decide) rfl
  · exact (c8_copy_file_dest "nofile" "a.txt"
      (fun s => if s = "dir2" then some true else none)).2.2 (by decide) rfl

/-! ## Claim C9: verifier with no current agent -/

/-- Claim C9: on a cache-miss `do` with a non-empty verify list, when the
thread-local current-agent context is absent the verifier executes zero
checks and returns true, so the step counts as verified with nothing
checked. -/
theorem c9_verifier_no_agent (checks : List Check) (h : checks ≠ []) :
    verifierModel checks none = (true, 0) := by
  cases checks with
  | nil => exact absurd rfl h
  | cons c t => rfl

/-- Claim C9, witness: a single failing check is never executed when the
current agent is absent, and the verifier still reports success. -/
theorem c9_witness :
    ([(("has_python" : String), Except.error "python missing")] : List Check) ≠ []
      ∧ verifierModel
          ([(("has_python" : String), Except.error "python missing")] : List Check)
          none = (true, 0) :=
  ⟨List.cons_ne_nil _ _,
    c9_verifier_no_agent
      ([(("has_python" : String), Except.error "python missing")] : List Check)
      (List.cons_ne_nil _ _)⟩

end MorphSpec
